import Mathlib

/-!
Verification of the section-aware resume retrieval engine.

This file gives a shallow embedding of the core logic of the repository:

* the two keyword sectionizers
  (`KNOWLEDGE_EXTRACTOR/router.py`, `DocumentRouter._local_sectionizer`, and
  `KNOWLEDGE_EXTRACTOR/word_parser.py`, `extract_resume_sections`);
* the record builder
  (`TEXT_EMBEDDING_MODEL/textEmbedding_model.py`, `process_extracted_data`);
* the vector-store manager
  (`CHROMA_DB/collections.py`, `ChromaDBManager.add_record` and
  `ChromaDBManager.query`);
* the duplicate check of the indexing pipeline (`main.py`, `index_directory`).

Python strings are modelled as Lean `String`s with hand-rolled, fully
computable versions of the primitives the source relies on
(`str.strip`, `str.lower`, `"\n".join`, `str.split("\n")`, substring test).
Python dicts are modelled as association lists in insertion order, floats as
rationals, and the external collaborators (embedding model, file mtime, md5,
the raw vector-store response) as explicit parameters.
-/

namespace ResumeRAG

/-! ### Python string primitives -/

/-- Whitespace test used by `str.strip`. -/
def isWS (c : Char) : Bool := c.isWhitespace

/-- Model of Python `str.strip()` on the character list. -/
def stripL (l : List Char) : List Char :=
  ((l.dropWhile isWS).reverse.dropWhile isWS).reverse

/-- Model of Python `str.strip()`. -/
def pyStrip (s : String) : String := ⟨stripL s.data⟩

/-- Model of Python `str.lower()` (ASCII case folding). -/
def pyLower (s : String) : String := ⟨s.data.map Char.toLower⟩

/-- Model of Python `"\n".join(l)` on character lists. -/
def joinNL : List (List Char) → List Char
  | [] => []
  | [x] => x
  | x :: y :: xs => x ++ '\n' :: joinNL (y :: xs)

/-- Model of Python `"\n".join(l)` on strings. -/
def joinLines (l : List String) : String := ⟨joinNL (l.map String.data)⟩

/-- Model of Python `text.split("\n")` on character lists. -/
def splitNL : List Char → List (List Char)
  | [] => [[]]
  | c :: t =>
    if c = '\n' then [] :: splitNL t
    else
      match splitNL t with
      | [] => [[c]]
      | h :: r => (c :: h) :: r

/-- Model of Python `text.split("\n")`. -/
def pySplitLines (s : String) : List String := (splitNL s.data).map List.asString

/-- Model of the Python substring test `needle in hay`. -/
def containsSub (needle : List Char) : List Char → Bool
  | [] => needle.isPrefixOf []
  | c :: t => needle.isPrefixOf (c :: t) || containsSub needle t

/-- Model of Python `any(k in lower for k in kws)`. -/
def anyKw (lower : String) (kws : List String) : Bool :=
  kws.any (fun k => containsSub k.data lower.data)

/-! ### Sectionizers

Source: `KNOWLEDGE_EXTRACTOR/router.py`, `DocumentRouter._local_sectionizer`
(lines 231-266) and `KNOWLEDGE_EXTRACTOR/word_parser.py`,
`extract_resume_sections` (lines 298-344).
-/

/-- Keyword group guarding `contact_info` in `_local_sectionizer`. -/
def localContactKws : List String := ["contact", "email", "phone", "linkedin", "github"]

/-- Keyword group guarding `summary` in `_local_sectionizer`. -/
def localSummaryKws : List String := ["summary", "objective", "profile", "about"]

/-- Keyword group guarding `skills` in `_local_sectionizer`. -/
def localSkillsKws : List String := ["skill", "tech", "tools", "stack"]

/-- Keyword group guarding `experience` in `_local_sectionizer`. -/
def localExperienceKws : List String :=
  ["experience", "employment", "work history", "professional experience", "internship"]

/-- Keyword group guarding `education` in `_local_sectionizer`. -/
def localEducationKws : List String :=
  ["education", "university", "college", "degree", "b.tech", "bachelors", "masters", "phd"]

/-- Keyword group guarding `projects` in `_local_sectionizer`. -/
def localProjectsKws : List String := ["project", "projects", "portfolio", "case study"]

/-- Keyword group guarding `certifications` in `_local_sectionizer`. -/
def localCertKws : List String :=
  ["certification", "certifications", "awards", "achievements"]

/-- Per-line classification chain of `_local_sectionizer`: the `if`/`elif`
cascade over the lower-cased stripped line; `none` when no group matches. -/
def localClassify (lower : String) : Option String :=
  if anyKw lower localContactKws then some "contact_info"
  else if anyKw lower localSummaryKws then some "summary"
  else if anyKw lower localSkillsKws then some "skills"
  else if anyKw lower localExperienceKws then some "experience"
  else if anyKw lower localEducationKws then some "education"
  else if anyKw lower localProjectsKws then some "projects"
  else if anyKw lower localCertKws then some "certifications"
  else none

/-- Initial section table of `_local_sectionizer` (dict insertion order). -/
def initialLocalSections : List (String × String) :=
  [("contact_info", ""), ("summary", ""), ("skills", ""), ("experience", ""),
   ("education", ""), ("projects", ""), ("certifications", ""), ("others", "")]

/-- Append `add` to the entry of `key` in the section table
(`sections[current] += ...`). -/
def appendSec (secs : List (String × String)) (key : String) (add : String) :
    List (String × String) :=
  secs.map (fun p => if p.1 = key then (p.1, p.2 ++ add) else p)

/-- One loop iteration of `_local_sectionizer`: blank lines are skipped
outright; otherwise the lower-cased stripped line may switch the current
section, and the stripped line plus a newline is appended to the section
that is current after the possible switch. -/
def localStep (st : String × List (String × String)) (rawLine : String) :
    String × List (String × String) :=
  let line := pyStrip rawLine
  if line = "" then st
  else
    let lower := pyLower line
    let cur := (localClassify lower).getD st.1
    (cur, appendSec st.2 cur (line ++ "\n"))

/-- Model of `DocumentRouter._local_sectionizer` (router.py lines 231-266). -/
def local_sectionizer (text : String) : List (String × String) :=
  (((pySplitLines text).foldl localStep ("others", initialLocalSections)).2).map
    (fun p => (p.1, pyStrip p.2))

/-- Keyword group guarding `skills` in `extract_resume_sections`. -/
def wordSkillsKws : List String := ["skill", "technology", "programming", "framework"]

/-- Keyword group guarding `experience` in `extract_resume_sections`. -/
def wordExperienceKws : List String := ["experience", "work", "employment", "job"]

/-- Keyword group guarding `education` in `extract_resume_sections`. -/
def wordEducationKws : List String := ["education", "degree", "university", "college", "school"]

/-- Keyword group guarding `summary` in `extract_resume_sections`. -/
def wordSummaryKws : List String := ["summary", "profile", "objective", "about"]

/-- Keyword group guarding `contact_info` in `extract_resume_sections`. -/
def wordContactKws : List String := ["email", "phone", "@", "linkedin", "github"]

/-- Per-line classification chain of `extract_resume_sections`: its
`if`/`elif` cascade tests skills first and contact info last. -/
def wordClassify (lower : String) : Option String :=
  if anyKw lower wordSkillsKws then some "skills"
  else if anyKw lower wordExperienceKws then some "experience"
  else if anyKw lower wordEducationKws then some "education"
  else if anyKw lower wordSummaryKws then some "summary"
  else if anyKw lower wordContactKws then some "contact_info"
  else none

/-- Initial section table of `extract_resume_sections`. -/
def initialWordSections : List (String × String) :=
  [("contact_info", ""), ("skills", ""), ("experience", ""), ("education", ""),
   ("summary", ""), ("other", "")]

/-- One loop iteration of `extract_resume_sections`: the classification runs
on `line.lower().strip()` for every line (a blank line matches no keyword),
and the original line plus a newline is appended when `line.strip()` is
non-empty. -/
def wordStep (st : String × List (String × String)) (line : String) :
    String × List (String × String) :=
  let lineLower := pyStrip (pyLower line)
  let cur := (wordClassify lineLower).getD st.1
  if pyStrip line = "" then (cur, st.2)
  else (cur, appendSec st.2 cur (line ++ "\n"))

/-- Model of `extract_resume_sections` (word_parser.py lines 298-344). -/
def extract_resume_sections (text : String) : List (String × String) :=
  (((pySplitLines text).foldl wordStep ("other", initialWordSections)).2).map
    (fun p => (p.1, pyStrip p.2))

/-- Modelled from the spec: an ordered list of keyword groups tried in
priority order, the first matching group winning (spec section 4.1). -/
def firstMatchGroup : List (String × List String) → String → Option String
  | [], _ => none
  | g :: gs, lower => if anyKw lower g.2 then some g.1 else firstMatchGroup gs lower

/-- Keyword groups of the router sectionizer arranged in the priority order
the claim states: contact, summary, skills, experience, education, projects,
certifications. -/
def claimedLocalGroups : List (String × List String) :=
  [("contact_info", localContactKws), ("summary", localSummaryKws),
   ("skills", localSkillsKws), ("experience", localExperienceKws),
   ("education", localEducationKws), ("projects", localProjectsKws),
   ("certifications", localCertKws)]

/-- Keyword groups of `extract_resume_sections` arranged in the priority
order the claim states (contact first, then summary, skills, experience,
education; that sectionizer has no projects or certifications group). -/
def claimedWordGroups : List (String × List String) :=
  [("contact_info", wordContactKws), ("summary", wordSummaryKws),
   ("skills", wordSkillsKws), ("experience", wordExperienceKws),
   ("education", wordEducationKws)]

/-- Keyword groups of `extract_resume_sections` in the order its code
actually tests them. -/
def actualWordGroups : List (String × List String) :=
  [("skills", wordSkillsKws), ("experience", wordExperienceKws),
   ("education", wordEducationKws), ("summary", wordSummaryKws),
   ("contact_info", wordContactKws)]

/-! ### Record builder

Source: `TEXT_EMBEDDING_MODEL/textEmbedding_model.py`,
`process_extracted_data` (lines 12-92).  The embedding model, the file's
mtime string and the truncated md5 hash are external collaborators and enter
as parameters.
-/

/-- Input dictionary of `process_extracted_data` (the structured extraction
result): success flag, filename, file path and the ordered section dict. -/
structure ExtractedData where
  success : Bool
  filename : String
  file_path : String
  sections : List (String × String)
deriving DecidableEq

/-- Metadata sub-dictionary of the record built by
`process_extracted_data`. -/
structure RecordMetadata where
  filename : String
  full_text : String
  sections : List (String × String)
  section_embeddings : List (String × List ℚ)
deriving DecidableEq

/-- Record returned by `process_extracted_data`. -/
structure DbRecord where
  id : String
  embedding : List ℚ
  metadata : RecordMetadata
deriving DecidableEq

/-- Model of `process_extracted_data`.  `hashId` stands for
`hashlib.md5(...).hexdigest()[:8]`, `mtime` for
`str(os.path.getmtime(file_path))` and `embed` for `model.encode(...)`. -/
def process_extracted_data (hashId : String → String) (mtime : String)
    (embed : String → List ℚ) (ed : ExtractedData) : Option DbRecord :=
  if !ed.success then none
  else
    let full_text := pyStrip (joinLines (ed.sections.map Prod.snd))
    let record_id := ed.filename ++ "_" ++ hashId (ed.file_path ++ "_" ++ mtime)
    if full_text = "" then none
    else
      let section_texts := ed.sections.filterMap (fun p =>
        let clean := pyStrip p.2
        if clean = "" then none else some (p.1, clean))
      some
        { id := record_id
          embedding := embed full_text
          metadata :=
            { filename := ed.filename
              full_text := full_text
              sections := section_texts
              section_embeddings := section_texts.map (fun p => (p.1, embed p.2)) } }

/-- Modelled from the spec: the full text the claim describes, namely the
newline join of the trimmed texts of exactly the non-empty sections. -/
def claimedFullText (sections : List (String × String)) : String :=
  joinLines (sections.filterMap (fun p =>
    let clean := pyStrip p.2
    if clean = "" then none else some clean))

/-! ### Vector store: section collection and `add_record`

Source: `CHROMA_DB/collections.py`, `ChromaDBManager.add_record`
(lines 26-60).  The section collection is modelled as the list of its live
items.
-/

/-- Metadata stored with one section item (collections.py lines 47-51). -/
structure SectionMeta where
  resume_id : String
  section_name : String
  filename : String
deriving DecidableEq

/-- One live item of the `resume_sections` collection. -/
structure StoredItem where
  id : String
  document : String
  embedding : List ℚ
  meta : SectionMeta
deriving DecidableEq

/-- Items `add_record` inserts for a record: one per section whose text does
not strip to empty, with id `{record id}_{section name}` and metadata
carrying the record id as `resume_id`, the section name and the filename. -/
def sectionItems (rec : DbRecord) : List StoredItem :=
  rec.metadata.sections.filterMap (fun p =>
    if pyStrip p.2 = "" then none
    else
      some
        { id := rec.id ++ "_" ++ p.1
          document := p.2
          embedding := (List.lookup p.1 rec.metadata.section_embeddings).getD []
          meta :=
            { resume_id := rec.id
              section_name := p.1
              filename := rec.metadata.filename } })

/-- Model of `ChromaDBManager.add_record`: first delete every stored item
whose metadata `resume_id` equals the record's id, then batch-insert the
section items. -/
def add_record (store : List StoredItem) (rec : DbRecord) : List StoredItem :=
  store.filter (fun it => !(it.meta.resume_id == rec.id)) ++ sectionItems rec

/-! ### Vector store: `query`

Source: `CHROMA_DB/collections.py`, `ChromaDBManager.query` (lines 62-105).
The raw response of `sections_collection.query` is an external input: three
optional outer arrays (absent models a missing or falsy entry), each a list
of per-query lists aligned by rank, whose entries may individually be
missing (`None`).
-/

/-- Value stored in a match dictionary. -/
inductive Val where
  | str (s : String)
  | rat (q : ℚ)
deriving DecidableEq

/-- A Python dict with string keys in insertion order. -/
abbrev MatchD := List (String × Val)

/-- Raw response of the underlying `sections_collection.query` call. -/
structure RawResults where
  documents : Option (List (List (Option String)))
  metadatas : Option (List (List (Option SectionMeta)))
  distances : Option (List (List (Option ℚ)))
deriving DecidableEq

/-- Return value of `ChromaDBManager.query`; `matchList` models the value
under the "matches" key and `query? = none` models the early return that
omits the "query" key. -/
structure QueryOutput where
  matchList : List MatchD
  resume_scores : List (String × ℚ)
  query? : Option String
deriving DecidableEq

/-- Python `round(x, 2)` as rounding to the nearest hundredth. -/
def round2 (q : ℚ) : ℚ := ((round (q * 100) : ℤ) : ℚ) / 100

/-- Match dictionary built for one surviving result
(collections.py lines 84-91), in insertion order. -/
def mkMatch (meta : SectionMeta) (doc : String) (mp : ℚ) : MatchD :=
  [("resume_id", Val.str meta.resume_id),
   ("section_name", Val.str meta.section_name),
   ("match_percentage", Val.rat mp),
   ("text", Val.str doc),
   ("id", Val.str (meta.resume_id ++ "_" ++ meta.section_name))]

/-- One rank of the zipped result arrays. -/
abbrev ResultRow := Option String × Option SectionMeta × Option ℚ

/-- Surviving results of the processing loop: ranks with any missing entry
are skipped, the distance is converted to a percentage, and only ranks whose
percentage reaches `min_similarity * 100` survive. -/
def survivors (minSim : ℚ) (rows : List ResultRow) :
    List (SectionMeta × String × ℚ) :=
  rows.filterMap (fun r =>
    match r with
    | (some doc, some meta, some dist) =>
      let mp := round2 ((1 - dist) * 100)
      if minSim * 100 ≤ mp then some (meta, doc, mp) else none
    | _ => none)

/-- Update of the `resume_scores` accumulator for one surviving result:
start a singleton list for a new resume id, append otherwise. -/
def addScore (acc : List (String × List ℚ)) (rid : String) (mp : ℚ) :
    List (String × List ℚ) :=
  if acc.any (fun e => e.1 == rid) then
    acc.map (fun e => if e.1 == rid then (e.1, e.2 ++ [mp]) else e)
  else acc ++ [(rid, [mp])]

/-- Grouping pass of the loop: fold `addScore` over the surviving
(resume id, percentage) pairs. -/
def buildScores (ps : List (String × ℚ)) : List (String × List ℚ) :=
  ps.foldl (fun acc p => addScore acc p.1 p.2) []

/-- Arithmetic mean `sum(scores)/len(scores)`. -/
def listMean (l : List ℚ) : ℚ := l.sum / l.length

/-- Model of `ChromaDBManager.query`.  `query_embedding` and `top_k` are
only forwarded to the external store call, whose response is the `raw`
input; they do not affect the post-processing. -/
def query (query_text : String) (query_embedding : List ℚ) (top_k : ℕ)
    (raw : RawResults) (min_similarity : ℚ) : QueryOutput :=
  let _ := query_embedding
  let _ := top_k
  let minSim := min_similarity
  match raw.documents, raw.metadatas, raw.distances with
  | some (docs0 :: _), some (metas0 :: _), some (dists0 :: _) =>
    if docs0.isEmpty || metas0.isEmpty || dists0.isEmpty then
      { matchList := [], resume_scores := [], query? := none }
    else
      let rows := docs0.zip (metas0.zip dists0)
      let survs := survivors minSim rows
      let scores := buildScores (survs.map (fun s => (s.1.resume_id, s.2.2)))
      { matchList := survs.map (fun s => mkMatch s.1 s.2.1 s.2.2)
        resume_scores := scores.map (fun e => (e.1, round2 (listMean e.2)))
        query? := some query_text }
  | _, _, _ => { matchList := [], resume_scores := [], query? := none }

/-- Percentages of the matches in a match list whose `resume_id` field
equals `rid` (the per-document grouping the claim describes, read off the
returned match dictionaries). -/
def survivingPcts (ms : List MatchD) (rid : String) : List ℚ :=
  ms.filterMap (fun m =>
    match List.lookup "resume_id" m, List.lookup "match_percentage" m with
    | some (Val.str r), some (Val.rat p) => if r = rid then some p else none
    | _, _ => none)

/-! ### Indexing pipeline duplicate check

Source: `main.py`, `index_directory` (lines 53-59), together with
`ChromaDBManager.__init__` (collections.py lines 14-24), which sets exactly
the attributes `client` and `sections_collection` on the manager.
-/

/-- Attributes `ChromaDBManager.__init__` defines on the manager object. -/
def chromaManagerAttrs : List String := ["client", "sections_collection"]

/-- Python attribute access: succeeds only for a defined attribute. -/
def getAttr (attrs : List String) (name : String) : Except String Unit :=
  if attrs.contains name then Except.ok () else Except.error ("AttributeError: " ++ name)

/-- Duplicate check of `index_directory`: inside `try`, read
`chroma_manager.collection` and test whether the record id has existing
items; `except Exception: pass` treats any error as "not a duplicate".
`existingIds` is what the collection lookup would report for the record id
if the attribute access succeeded. -/
def duplicateCheckSkips (attrs : List String) (existingIds : List String)
    (recordId : String) : Bool :=
  match getAttr attrs "collection" with
  | Except.ok _ => existingIds.contains recordId
  | Except.error _ => false

/-! ### Helper lemmas on the string primitives -/

theorem forall_dropWhile_iff (p : Char → Bool) (l : List Char) :
    (∀ c ∈ l.dropWhile p, p c = true) ↔ ∀ c ∈ l, p c = true := by
  constructor
  · intro h c hc
    have hc2 : c ∈ l.takeWhile p ++ l.dropWhile p := by
      rw [List.takeWhile_append_dropWhile]; exact hc
    rcases List.mem_append.mp hc2 with h1 | h2
    · exact List.mem_takeWhile_imp h1
    · exact h c h2
  · intro h c hc
    exact h c ((List.dropWhile_sublist p).subset hc)

theorem stripL_eq_nil_iff (l : List Char) :
    stripL l = [] ↔ ∀ c ∈ l, isWS c = true := by
  rw [stripL, List.reverse_eq_nil_iff, List.dropWhile_eq_nil_iff]
  constructor
  · intro h
    rw [← forall_dropWhile_iff isWS l]
    intro c hc
    exact h c (List.mem_reverse.mpr hc)
  · intro h c hc
    exact (forall_dropWhile_iff isWS l).mpr h c (List.mem_reverse.mp hc)

theorem mkString_eq_empty_iff (l : List Char) : (⟨l⟩ : String) = "" ↔ l = [] := by
  constructor
  · intro h
    have : (⟨l⟩ : String).data = ("" : String).data := by rw [h]
    exact this
  · intro h
    rw [h]

theorem pyStrip_eq_empty_iff (s : String) :
    pyStrip s = "" ↔ ∀ c ∈ s.data, isWS c = true := by
  rw [pyStrip, mkString_eq_empty_iff, stripL_eq_nil_iff]

theorem joinNL_allWS_iff (L : List (List Char)) :
    (∀ c ∈ joinNL L, isWS c = true) ↔ ∀ x ∈ L, ∀ c ∈ x, isWS c = true := by
  induction L with
  | nil => simp [joinNL]
  | cons x xs ih =>
    cases xs with
    | nil => simp [joinNL]
    | cons y ys =>
      constructor
      · intro h z hz
        rcases List.mem_cons.mp hz with rfl | hz2
        · intro c hc
          exact h c (List.mem_append_left _ hc)
        · intro c hc
          refine ih.mp ?_ z hz2 c hc
          intro d hd
          exact h d (List.mem_append_right _ (List.mem_cons_of_mem _ hd))
      · intro h c hc
        rcases List.mem_append.mp hc with h1 | h2
        · exact h x (List.mem_cons_self _ _) c h1
        · rcases List.mem_cons.mp h2 with rfl | h3
          · rfl
          · exact ih.mpr (fun z hz => h z (List.mem_cons_of_mem _ hz)) c h3

theorem pyStrip_joinLines_eq_empty_iff (l : List String) :
    pyStrip (joinLines l) = "" ↔ ∀ s ∈ l, pyStrip s = "" := by
  rw [joinLines, pyStrip_eq_empty_iff]
  have hdata : (⟨joinNL (l.map String.data)⟩ : String).data = joinNL (l.map String.data) := rfl
  rw [hdata, joinNL_allWS_iff]
  constructor
  · intro h s hs
    rw [pyStrip_eq_empty_iff]
    exact h s.data (List.mem_map_of_mem String.data hs)
  · intro h x hx
    rcases List.mem_map.mp hx with ⟨s, hs, rfl⟩
    exact (pyStrip_eq_empty_iff s).mp (h s hs)

/-! ### Claim theorems: record builder -/

/-- Test input showing how `process_extracted_data` treats an empty middle
section. -/
def ed₅ : ExtractedData :=
  { success := true, filename := "r.pdf", file_path := "p",
    sections := [("skills", "x"), ("summary", ""), ("education", "y")] }

/-- C5, counterexample: on an input whose middle section is empty, the code
produces the full text "x\n\ny" (newline-join of all raw section values),
while the claimed construction (newline-join of the trimmed non-empty
sections only) gives "x\ny". -/
theorem C5_counterexample :
    (process_extracted_data (fun _ => "h") "0" (fun _ => []) ed₅).map
        (fun r => r.metadata.full_text) = some "x\n\ny"
    ∧ claimedFullText ed₅.sections = "x\ny"
    ∧ ("x\n\ny" : String) ≠ "x\ny" := by
  refine ⟨by decide, by decide, by decide⟩

/-- C5, amended: the full text of a built record is the newline join of all
section values in enumeration order — empty sections contribute empty
segments and the individual texts are not trimmed — with only the joined
result stripped at both ends. -/
theorem C5_full_text (hashId : String → String) (mtime : String)
    (embed : String → List ℚ) (ed : ExtractedData) :
    (process_extracted_data hashId mtime embed ed).map (fun r => r.metadata.full_text)
      = if ed.success = true ∧ pyStrip (joinLines (ed.sections.map Prod.snd)) ≠ "" then
          some (pyStrip (joinLines (ed.sections.map Prod.snd)))
        else none := by
  unfold process_extracted_data
  by_cases hs : ed.success
  · by_cases hf : pyStrip (joinLines (ed.sections.map Prod.snd)) = "" <;>
      simp [hs, hf]
  · simp [hs]

/-- C5, witness: the amended statement evaluated at the concrete input
`ed₅`, whose success flag holds and whose joined text is non-empty. -/
theorem C5_full_text_witness :
    (process_extracted_data (fun _ => "h") "0" (fun _ => []) ed₅).map
        (fun r => r.metadata.full_text)
      = some (pyStrip (joinLines (ed₅.sections.map Prod.snd))) := by
  rw [C5_full_text (fun _ => "h") "0" (fun _ => []) ed₅, if_pos]
  exact ⟨rfl, by decide⟩

/-- C6: the record builder returns `none` exactly when the success flag is
false or every section text is empty after trimming; otherwise it returns a
record whose id combines filename, path and mtime hash, whose embedding is
the embedding of its full text, and which carries one section embedding per
kept section. -/
theorem C6_record_none_iff (hashId : String → String) (mtime : String)
    (embed : String → List ℚ) (ed : ExtractedData) :
    (process_extracted_data hashId mtime embed ed = none ↔
      ed.success = false ∨ ∀ p ∈ ed.sections, pyStrip p.2 = "")
    ∧ ∀ r, process_extracted_data hashId mtime embed ed = some r →
        r.id = ed.filename ++ "_" ++ hashId (ed.file_path ++ "_" ++ mtime)
        ∧ r.embedding = embed r.metadata.full_text
        ∧ r.metadata.section_embeddings
            = r.metadata.sections.map (fun p => (p.1, embed p.2)) := by
  have key : pyStrip (joinLines (ed.sections.map Prod.snd)) = ""
      ↔ ∀ p ∈ ed.sections, pyStrip p.2 = "" := by
    rw [pyStrip_joinLines_eq_empty_iff]
    constructor
    · intro h p hp
      exact h p.2 (List.mem_map_of_mem Prod.snd hp)
    · intro h s hs
      rcases List.mem_map.mp hs with ⟨p, hp, rfl⟩
      exact h p hp
  have hiff : process_extracted_data hashId mtime embed ed = none ↔
      (ed.success = false ∨ pyStrip (joinLines (ed.sections.map Prod.snd)) = "") := by
    unfold process_extracted_data
    cases hs : ed.success with
    | false => simp
    | true =>
      by_cases hf : pyStrip (joinLines (ed.sections.map Prod.snd)) = "" <;> simp [hf]
  constructor
  · rw [hiff]
    exact or_congr Iff.rfl key
  · intro r hr
    unfold process_extracted_data at hr
    cases hs : ed.success with
    | false => rw [hs] at hr; simp at hr
    | true =>
      rw [hs] at hr
      by_cases hf : pyStrip (joinLines (ed.sections.map Prod.snd)) = ""
      · simp [hf] at hr
      · simp [hf] at hr
        subst hr
        refine ⟨rfl, rfl, rfl⟩

/-- Test input with one non-empty section and a truthy success flag. -/
def ed₆ : ExtractedData :=
  { success := true, filename := "r.pdf", file_path := "p",
    sections := [("skills", "x")] }

/-- Record `process_extracted_data` builds for `ed₆` with the trivial
collaborators. -/
def r₆ : DbRecord :=
  { id := "r.pdf_h", embedding := [],
    metadata :=
      { filename := "r.pdf", full_text := "x", sections := [("skills", "x")],
        section_embeddings := [("skills", [])] } }

/-- C6, witness: the second half of the characterisation applied at the
concrete input `ed₆` and its output record `r₆`. -/
theorem C6_record_none_iff_witness :
    r₆.id = "r.pdf" ++ "_" ++ (fun _ : String => "h") ("p" ++ "_" ++ "0")
    ∧ r₆.embedding = (fun _ : String => ([] : List ℚ)) r₆.metadata.full_text
    ∧ r₆.metadata.section_embeddings
        = r₆.metadata.sections.map (fun p => (p.1, (fun _ : String => ([] : List ℚ)) p.2)) :=
  (C6_record_none_iff (fun _ => "h") "0" (fun _ => []) ed₆).2 r₆ (by decide)

/-! ### Claim theorems: sectionizers -/

/-- C7, counterexample: the line "email skill" matches a contact keyword of
`extract_resume_sections`, and the claimed priority order (contact first)
would classify it as contact info, yet the code routes it to skills, because
that sectionizer tests its skills group first. -/
theorem C7_counterexample :
    anyKw (pyStrip (pyLower "email skill")) wordContactKws = true
    ∧ firstMatchGroup claimedWordGroups (pyStrip (pyLower "email skill")) = some "contact_info"
    ∧ List.lookup "skills" (extract_resume_sections "email skill") = some "email skill"
    ∧ List.lookup "contact_info" (extract_resume_sections "email skill") = some "" := by
  refine ⟨by decide, by decide, by decide, by decide⟩

/-- C7, amended: each sectionizer classifies a line as the first matching
group of its own ordered keyword list; the router's local sectionizer uses
the order contact, summary, skills, experience, education, projects,
certifications, while `extract_resume_sections` uses the order skills,
experience, education, summary, contact.  For a non-blank line the section
switch of the local sectionizer is that first match. -/
theorem C7_priority :
    (∀ lower, localClassify lower = firstMatchGroup claimedLocalGroups lower)
    ∧ (∀ lower, wordClassify lower = firstMatchGroup actualWordGroups lower)
    ∧ ∀ st line, pyStrip line ≠ "" →
        (localStep st line).1
          = (firstMatchGroup claimedLocalGroups (pyLower (pyStrip line))).getD st.1 := by
  have h1 : ∀ lower, localClassify lower = firstMatchGroup claimedLocalGroups lower :=
    fun _ => rfl
  refine ⟨h1, fun _ => rfl, ?_⟩
  intro st line h
  unfold localStep
  rw [if_neg h]
  exact congrArg (fun o => Option.getD o st.1) (h1 _)

/-- C7, witness: the priority statement instantiated at a non-blank heading
line; the local sectionizer switches to contact info on it. -/
theorem C7_priority_witness :
    (localStep ("others", initialLocalSections) "Contact Info").1
      = (firstMatchGroup claimedLocalGroups (pyLower (pyStrip "Contact Info"))).getD "others" :=
  C7_priority.2.2 ("others", initialLocalSections) "Contact Info" (by decide)

/-! ### Claim theorems: indexing duplicate check -/

/-- C9: the duplicate check of `index_directory` never causes a skip: it
reads `chroma_manager.collection`, an attribute `ChromaDBManager.__init__`
never defines (the manager only has `client` and `sections_collection`), so
the lookup raises, `except Exception: pass` swallows the error, and the file
is treated as new even when the record id already has stored items. -/
theorem C9_duplicate_check_never_skips :
    ∀ (existingIds : List String) (recordId : String),
      duplicateCheckSkips chromaManagerAttrs existingIds recordId = false :=
  fun _ _ => rfl

/-! ### Claim theorems: upsert into the section collection -/

theorem string_append_cancel_left (a x y : String) (h : a ++ x = a ++ y) : x = y := by
  have hd : a.data ++ x.data = a.data ++ y.data := by
    rw [← String.data_append, ← String.data_append, h]
  have hxy := List.append_cancel_left hd
  cases x
  cases y
  exact congrArg String.mk hxy

theorem map_id_sectionItems (rec : DbRecord) :
    (sectionItems rec).map StoredItem.id
      = (rec.metadata.sections.filter (fun p => !(decide (pyStrip p.2 = "")))).map
          (fun p => rec.id ++ "_" ++ p.1) := by
  rw [sectionItems]
  induction rec.metadata.sections with
  | nil => rfl
  | cons p t ih =>
    by_cases h : pyStrip p.2 = "" <;>
      simp [List.filterMap_cons, List.filter_cons, h, ih]

theorem mem_sectionItems_resume_id (rec : DbRecord) (it : StoredItem)
    (hit : it ∈ sectionItems rec) : it.meta.resume_id = rec.id := by
  rcases List.mem_filterMap.mp hit with ⟨p, _, hfp⟩
  by_cases hps : pyStrip p.2 = ""
  · rw [if_pos hps] at hfp
    cases hfp
  · rw [if_neg hps] at hfp
    cases hfp
    rfl

/-- C4, amended: `add_record` first deletes every stored item whose metadata
`resume_id` equals the record's id (not its filename), then batch-inserts
one item per non-empty section; afterwards every item carrying the record's
id as `resume_id` is one of the fresh section items, items of other records
are untouched, and — when the record's section names are distinct — the
items of this record have pairwise distinct keys `id_section`. -/
theorem C4_upsert (store : List StoredItem) (rec : DbRecord)
    (hnd : (rec.metadata.sections.map Prod.fst).Nodup) :
    (∀ it ∈ add_record store rec, it.meta.resume_id = rec.id → it ∈ sectionItems rec)
    ∧ (∀ it ∈ store, it.meta.resume_id ≠ rec.id → it ∈ add_record store rec)
    ∧ (((add_record store rec).filter
          (fun it => it.meta.resume_id == rec.id)).map StoredItem.id).Nodup := by
  refine ⟨?_, ?_, ?_⟩
  · intro it hit hrid
    rcases List.mem_append.mp hit with h1 | h2
    · have hmem := List.mem_filter.mp h1
      simp [hrid] at hmem
    · exact h2
  · intro it hit hne
    exact List.mem_append_left _ (List.mem_filter.mpr ⟨hit, by simp [hne]⟩)
  · rw [add_record, List.filter_append]
    have hfl : (store.filter (fun it => !(it.meta.resume_id == rec.id))).filter
        (fun it => it.meta.resume_id == rec.id) = [] := by
      rw [List.filter_filter]
      exact List.filter_eq_nil_iff.mpr (fun a _ => by simp [Bool.and_not_self])
    have hfr : (sectionItems rec).filter (fun it => it.meta.resume_id == rec.id)
        = sectionItems rec :=
      List.filter_eq_self.mpr (fun it hit => by
        simp [mem_sectionItems_resume_id rec it hit])
    rw [hfl, hfr, List.nil_append, map_id_sectionItems]
    have hkeys : ((rec.metadata.sections.filter
          (fun p => !(decide (pyStrip p.2 = "")))).map Prod.fst).Nodup :=
      ((List.filter_sublist _).map Prod.fst).nodup hnd
    have hmm : (rec.metadata.sections.filter
          (fun p => !(decide (pyStrip p.2 = "")))).map (fun p => rec.id ++ "_" ++ p.1)
        = ((rec.metadata.sections.filter
            (fun p => !(decide (pyStrip p.2 = "")))).map Prod.fst).map
              (fun n => rec.id ++ "_" ++ n) := by
      rw [List.map_map]
      rfl
    rw [hmm]
    exact hkeys.map (fun x y hxy => string_append_cancel_left _ x y hxy)

/-- Stale item left over from an earlier indexing run of the same file: its
metadata filename matches the new record, its `resume_id` does not. -/
def oldItem₄ : StoredItem :=
  { id := "a.pdf_1111_skills", document := "old", embedding := [],
    meta := { resume_id := "a.pdf_1111", section_name := "skills", filename := "a.pdf" } }

/-- Re-indexed record for the same filename after the file's mtime changed,
so its deterministic id differs from the old one. -/
def rec₄ : DbRecord :=
  { id := "a.pdf_2222", embedding := [],
    metadata :=
      { filename := "a.pdf", full_text := "new", sections := [("skills", "new")],
        section_embeddings := [("skills", [])] } }

/-- C4, counterexample: upserting `rec₄` does not delete the stored item
with the same metadata filename — the delete filters on `resume_id`, so the
stale item from the previous id survives the upsert. -/
theorem C4_counterexample :
    oldItem₄ ∈ add_record [oldItem₄] rec₄
    ∧ oldItem₄.meta.filename = rec₄.metadata.filename
    ∧ oldItem₄.meta.resume_id ≠ rec₄.id
    ∧ oldItem₄ ∉ sectionItems rec₄ := by
  refine ⟨by decide, by decide, by decide, by decide⟩

/-- C4, witness: the amended statement applied to the concrete store holding
the stale item and the concrete re-indexed record. -/
theorem C4_upsert_witness :
    (((add_record [oldItem₄] rec₄).filter
        (fun it => it.meta.resume_id == rec₄.id)).map StoredItem.id).Nodup :=
  (C4_upsert [oldItem₄] rec₄ (by decide)).2.2

/-! ### Helper lemmas on `query` -/

theorem query_matchList_cons (qt : String) (qe : List ℚ) (tk : ℕ) (minSim : ℚ)
    (d0 : List (Option String)) (dt : List (List (Option String)))
    (m0 : List (Option SectionMeta)) (mt : List (List (Option SectionMeta)))
    (s0 : List (Option ℚ)) (st : List (List (Option ℚ))) :
    (query qt qe tk ⟨some (d0 :: dt), some (m0 :: mt), some (s0 :: st)⟩ minSim).matchList
      = (survivors minSim (d0.zip (m0.zip s0))).map (fun s => mkMatch s.1 s.2.1 s.2.2) := by
  cases d0 with
  | nil => rfl
  | cons a as =>
    cases m0 with
    | nil => rfl
    | cons b bs =>
      cases s0 with
      | nil => rfl
      | cons c cs => rfl

theorem query_scores_cons (qt : String) (qe : List ℚ) (tk : ℕ) (minSim : ℚ)
    (d0 : List (Option String)) (dt : List (List (Option String)))
    (m0 : List (Option SectionMeta)) (mt : List (List (Option SectionMeta)))
    (s0 : List (Option ℚ)) (st : List (List (Option ℚ))) :
    (query qt qe tk ⟨some (d0 :: dt), some (m0 :: mt), some (s0 :: st)⟩ minSim).resume_scores
      = (buildScores ((survivors minSim (d0.zip (m0.zip s0))).map
          (fun s => (s.1.resume_id, s.2.2)))).map (fun e => (e.1, round2 (listMean e.2))) := by
  cases d0 with
  | nil => rfl
  | cons a as =>
    cases m0 with
    | nil => rfl
    | cons b bs =>
      cases s0 with
      | nil => rfl
      | cons c cs => rfl

theorem mem_query_matchList (qt : String) (qe : List ℚ) (tk : ℕ) (minSim : ℚ)
    (raw : RawResults) (mtc : MatchD) :
    mtc ∈ (query qt qe tk raw minSim).matchList ↔
      ∃ d0 dt m0 mt s0 st,
        raw = ⟨some (d0 :: dt), some (m0 :: mt), some (s0 :: st)⟩
        ∧ ∃ sv ∈ survivors minSim (d0.zip (m0.zip s0)),
            mtc = mkMatch sv.1 sv.2.1 sv.2.2 := by
  obtain ⟨d, m, s⟩ := raw
  constructor
  · intro hm
    rcases d with _ | (_ | ⟨d0, dt⟩)
    · exact absurd hm (List.not_mem_nil mtc)
    · exact absurd hm (List.not_mem_nil mtc)
    rcases m with _ | (_ | ⟨m0, mt⟩)
    · exact absurd hm (List.not_mem_nil mtc)
    · exact absurd hm (List.not_mem_nil mtc)
    rcases s with _ | (_ | ⟨s0, st⟩)
    · exact absurd hm (List.not_mem_nil mtc)
    · exact absurd hm (List.not_mem_nil mtc)
    rw [query_matchList_cons] at hm
    rcases List.mem_map.mp hm with ⟨sv, hsv, rfl⟩
    exact ⟨d0, dt, m0, mt, s0, st, rfl, sv, hsv, rfl⟩
  · rintro ⟨d0, dt, m0, mt, s0, st, heq, sv, hsv, rfl⟩
    cases heq
    rw [query_matchList_cons]
    exact List.mem_map_of_mem _ hsv

/-! ### Claim theorems: query post-processing -/

/-- C8, amended: every match dictionary produced by `query` has exactly the
keys resume_id, section_name, match_percentage, text and id, in that order;
in particular it does not carry the source document's filename (which lives
only in the stored metadata). -/
theorem C8_match_keys (qt : String) (qe : List ℚ) (tk : ℕ) (raw : RawResults)
    (minSim : ℚ) (mtc : MatchD)
    (hm : mtc ∈ (query qt qe tk raw minSim).matchList) :
    mtc.map Prod.fst = ["resume_id", "section_name", "match_percentage", "text", "id"] := by
  rcases (mem_query_matchList qt qe tk minSim raw mtc).mp hm with
    ⟨d0, dt, m0, mt, s0, st, _, sv, _, rfl⟩
  rfl

/-- C2: every match surviving into the result list carries a
match_percentage at least `min_similarity * 100`: whatever rational sits in
its match_percentage field clears the threshold. -/
theorem C2_threshold (qt : String) (qe : List ℚ) (tk : ℕ) (raw : RawResults)
    (minSim : ℚ) (mtc : MatchD)
    (hm : mtc ∈ (query qt qe tk raw minSim).matchList) (p : ℚ)
    (hp : List.lookup "match_percentage" mtc = some (Val.rat p)) :
    minSim * 100 ≤ p := by
  rcases (mem_query_matchList qt qe tk minSim raw mtc).mp hm with
    ⟨d0, dt, m0, mt, s0, st, _, sv, hsv, rfl⟩
  rcases List.mem_filterMap.mp hsv with ⟨⟨od, om, odist⟩, _, hfrow⟩
  rcases od with _ | doc
  · cases hfrow
  rcases om with _ | meta
  · cases hfrow
  rcases odist with _ | dist
  · cases hfrow
  by_cases hth : minSim * 100 ≤ round2 ((1 - dist) * 100)
  · simp only [survivors, hth, if_true] at hfrow
    cases hfrow
    have hval : (some (Val.rat (round2 ((1 - dist) * 100))) : Option Val)
        = some (Val.rat p) := by
      rw [← hp]
      rfl
    cases Val.rat.inj (Option.some.inj hval)
    exact hth
  · simp only [survivors, hth, if_false] at hfrow
    cases hfrow

/-- C3: every neighbor of the raw response whose three entries are present
and whose converted percentage clears the threshold contributes the match
dictionary built from it, and that dictionary's match_percentage field is
exactly `round((1 - distance) * 100, 2)`. -/
theorem C3_match_percentage (qt : String) (qe : List ℚ) (tk : ℕ) (minSim : ℚ)
    (d0 : List (Option String)) (dt : List (List (Option String)))
    (m0 : List (Option SectionMeta)) (mt : List (List (Option SectionMeta)))
    (s0 : List (Option ℚ)) (st : List (List (Option ℚ)))
    (doc : String) (meta : SectionMeta) (dist : ℚ)
    (hrow : (some doc, some meta, some dist) ∈ d0.zip (m0.zip s0))
    (hth : minSim * 100 ≤ round2 ((1 - dist) * 100)) :
    mkMatch meta doc (round2 ((1 - dist) * 100)) ∈
      (query qt qe tk ⟨some (d0 :: dt), some (m0 :: mt), some (s0 :: st)⟩ minSim).matchList
    ∧ List.lookup "match_percentage" (mkMatch meta doc (round2 ((1 - dist) * 100)))
        = some (Val.rat (round2 ((1 - dist) * 100))) := by
  constructor
  · rw [query_matchList_cons]
    have hsv : (meta, (doc, round2 ((1 - dist) * 100)))
        ∈ survivors minSim (d0.zip (m0.zip s0)) :=
      List.mem_filterMap.mpr ⟨(some doc, some meta, some dist), hrow, by simp [hth]⟩
    exact List.mem_map_of_mem _ hsv
  · rfl

/-! ### Association-list lemmas for the score aggregation -/

theorem lookup_map_snd {β γ : Type} (f : β → γ) (k : String) (l : List (String × β)) :
    List.lookup k (l.map (fun e => (e.1, f e.2))) = (List.lookup k l).map f := by
  induction l with
  | nil => rfl
  | cons e t ih =>
    cases h : k == e.1 <;> simp [List.lookup, h, ih]

theorem lookup_append {β : Type} (k : String) (l₁ l₂ : List (String × β)) :
    List.lookup k (l₁ ++ l₂)
      = match List.lookup k l₁ with
        | some v => some v
        | none => List.lookup k l₂ := by
  induction l₁ with
  | nil => rfl
  | cons e t ih =>
    cases h : k == e.1 <;> simp [List.lookup, h, ih]

theorem lookup_none_of_any_false (r : String) (acc : List (String × List ℚ))
    (h : acc.any (fun e => e.1 == r) = false) : List.lookup r acc = none := by
  induction acc with
  | nil => rfl
  | cons e t ih =>
    simp only [List.any_cons, Bool.or_eq_false_iff] at h
    have h1 : (r == e.1) = false := by
      rw [beq_eq_false_iff_ne] at h ⊢
      exact fun hh => h.1 hh.symm
    simp [List.lookup, h1, ih h.2]

theorem lookup_some_of_any_true (r : String) (acc : List (String × List ℚ))
    (h : acc.any (fun e => e.1 == r) = true) : ∃ v, List.lookup r acc = some v := by
  induction acc with
  | nil => simp at h
  | cons e t ih =>
    by_cases hre : (r == e.1) = true
    · exact ⟨e.2, by simp [List.lookup, hre]⟩
    · have hre2 : (r == e.1) = false := by
        cases hx : r == e.1
        · rfl
        · exact absurd hx hre
      have her : (e.1 == r) = false := by
        rw [beq_eq_false_iff_ne] at hre2 ⊢
        exact fun hh => hre2 hh.symm
      simp only [List.any_cons, her, Bool.false_or] at h
      rcases ih h with ⟨v, hv⟩
      exact ⟨v, by simp [List.lookup, hre2, hv]⟩

theorem lookup_map_update (acc : List (String × List ℚ)) (r rid : String) (mp : ℚ) :
    List.lookup rid (acc.map (fun e => if e.1 == r then (e.1, e.2 ++ [mp]) else e))
      = if rid = r then (List.lookup rid acc).map (fun v => v ++ [mp])
        else List.lookup rid acc := by
  induction acc with
  | nil => simp [List.lookup]
  | cons e t ih =>
    obtain ⟨k, v⟩ := e
    rw [List.map_cons]
    have hhead : (if (k, v).1 == r then ((k, v).1, (k, v).2 ++ [mp]) else (k, v))
        = if k == r then (k, v ++ [mp]) else (k, v) := rfl
    rw [hhead]
    by_cases he : (k == r) = true
    · rw [if_pos he]
      have her : k = r := by rwa [beq_iff_eq] at he
      by_cases hre : (rid == k) = true
      · have hride : rid = k := by rwa [beq_iff_eq] at hre
        have hrr : rid = r := hride.trans her
        subst hrr
        rw [List.lookup_cons, List.lookup_cons, hre]
        simp
      · have hre2 : (rid == k) = false := by
          cases hx : rid == k
          · rfl
          · exact absurd hx hre
        have hner : rid ≠ r := by
          intro hh
          exact hre (beq_iff_eq.mpr (hh.trans her.symm))
        rw [List.lookup_cons, List.lookup_cons, hre2]
        simp [hner]
        simpa [hner] using ih
    · have he2 : (k == r) = false := by
        cases hx : k == r
        · rfl
        · exact absurd hx he
      rw [if_neg he]
      have her : k ≠ r := by rwa [beq_eq_false_iff_ne] at he2
      by_cases hre : (rid == k) = true
      · have hride : rid = k := by rwa [beq_iff_eq] at hre
        have hner : rid ≠ r := fun hh => her (hride.symm.trans hh)
        rw [List.lookup_cons, List.lookup_cons, hre]
        simp [hner]
      · have hre2 : (rid == k) = false := by
          cases hx : rid == k
          · rfl
          · exact absurd hx hre
        rw [List.lookup_cons, List.lookup_cons, hre2]
        simpa using ih

theorem lookup_addScore (acc : List (String × List ℚ)) (r : String) (mp : ℚ)
    (rid : String) :
    List.lookup rid (addScore acc r mp)
      = if rid = r then some (((List.lookup rid acc).getD []) ++ [mp])
        else List.lookup rid acc := by
  unfold addScore
  by_cases hany : acc.any (fun e => e.1 == r) = true
  · rw [if_pos hany, lookup_map_update]
    by_cases hr : rid = r
    · subst hr
      rcases lookup_some_of_any_true rid acc hany with ⟨v, hv⟩
      simp [hv]
    · simp [hr]
  · have hany2 : acc.any (fun e => e.1 == r) = false := by
      cases hx : acc.any (fun e => e.1 == r)
      · rfl
      · exact absurd hx hany
    rw [if_neg hany, lookup_append]
    have hnone := lookup_none_of_any_false r acc hany2
    by_cases hr : rid = r
    · subst hr
      simp [hnone, List.lookup]
    · have hrr : (rid == r) = false := beq_eq_false_iff_ne.mpr hr
      cases hl : List.lookup rid acc <;> simp [hl, List.lookup, hrr, hr]

theorem lookup_foldl_addScore (ps : List (String × ℚ)) (acc : List (String × List ℚ))
    (rid : String) :
    List.lookup rid (ps.foldl (fun a p => addScore a p.1 p.2) acc)
      = match List.lookup rid acc with
        | some v => some (v ++ ps.filterMap (fun p => if p.1 = rid then some p.2 else none))
        | none =>
          if ps.filterMap (fun p => if p.1 = rid then some p.2 else none) = [] then none
          else some (ps.filterMap (fun p => if p.1 = rid then some p.2 else none)) := by
  induction ps generalizing acc with
  | nil =>
    cases hl : List.lookup rid acc <;> simp [hl]
  | cons p ps ih =>
    rw [List.foldl_cons, ih (addScore acc p.1 p.2), lookup_addScore]
    by_cases hrp : rid = p.1
    · rw [if_pos hrp]
      have hcons : (p :: ps).filterMap (fun q => if q.1 = rid then some q.2 else none)
          = p.2 :: ps.filterMap (fun q => if q.1 = rid then some q.2 else none) := by
        rw [List.filterMap_cons, if_pos hrp.symm]
      rw [hcons]
      cases hl : List.lookup rid acc <;> simp [hl]
    · rw [if_neg hrp]
      have hcons : (p :: ps).filterMap (fun q => if q.1 = rid then some q.2 else none)
          = ps.filterMap (fun q => if q.1 = rid then some q.2 else none) := by
        rw [List.filterMap_cons, if_neg (fun hh => hrp hh.symm)]
      rw [hcons]

theorem lookup_buildScores (ps : List (String × ℚ)) (rid : String) :
    List.lookup rid (buildScores ps)
      = if ps.filterMap (fun p => if p.1 = rid then some p.2 else none) = [] then none
        else some (ps.filterMap (fun p => if p.1 = rid then some p.2 else none)) := by
  rw [buildScores, lookup_foldl_addScore]
  rfl

theorem survivingPcts_map_mkMatch (survs : List (SectionMeta × String × ℚ))
    (rid : String) :
    survivingPcts (survs.map (fun s => mkMatch s.1 s.2.1 s.2.2)) rid
      = survs.filterMap (fun s => if s.1.resume_id = rid then some s.2.2 else none) := by
  induction survs with
  | nil => rfl
  | cons s t ih =>
    have hf : (fun m => match List.lookup "resume_id" m,
          List.lookup "match_percentage" m with
        | some (Val.str r), some (Val.rat p) => if r = rid then some p else none
        | _, _ => none) (mkMatch s.1 s.2.1 s.2.2)
        = if s.1.resume_id = rid then some s.2.2 else none := rfl
    by_cases hs : s.1.resume_id = rid
    · simp only [survivingPcts, List.map_cons, List.filterMap_cons, hf, hs, if_true]
      simp only [survivingPcts] at ih
      rw [ih]
    · simp only [survivingPcts, List.map_cons, List.filterMap_cons, hf, hs, if_false]
      simp only [survivingPcts] at ih
      rw [ih]

/-- C1: a document id has an entry in `resume_scores` exactly when at least
one surviving match carries it, and that entry is the arithmetic mean of the
match percentages of those matches, rounded to two decimals. -/
theorem C1_resume_scores (qt : String) (qe : List ℚ) (tk : ℕ) (raw : RawResults)
    (minSim : ℚ) (rid : String) :
    List.lookup rid (query qt qe tk raw minSim).resume_scores
      = if survivingPcts (query qt qe tk raw minSim).matchList rid = [] then none
        else some (round2 (listMean
          (survivingPcts (query qt qe tk raw minSim).matchList rid))) := by
  obtain ⟨d, m, s⟩ := raw
  rcases d with _ | (_ | ⟨d0, dt⟩)
  · simp [query, survivingPcts]
  · simp [query, survivingPcts]
  rcases m with _ | (_ | ⟨m0, mt⟩)
  · simp [query, survivingPcts]
  · simp [query, survivingPcts]
  rcases s with _ | (_ | ⟨s0, st⟩)
  · simp [query, survivingPcts]
  · simp [query, survivingPcts]
  rw [query_scores_cons, query_matchList_cons, survivingPcts_map_mkMatch]
  rw [lookup_map_snd (fun v => round2 (listMean v)), lookup_buildScores]
  have heq : ((survivors minSim (d0.zip (m0.zip s0))).map
        (fun s => (s.1.resume_id, s.2.2))).filterMap
          (fun p => if p.1 = rid then some p.2 else none)
      = (survivors minSim (d0.zip (m0.zip s0))).filterMap
          (fun s => if s.1.resume_id = rid then some s.2.2 else none) := by
    rw [List.filterMap_map]
    rfl
  rw [heq]
  by_cases h : (survivors minSim (d0.zip (m0.zip s0))).filterMap
      (fun s => if s.1.resume_id = rid then some s.2.2 else none) = [] <;>
    simp [h]

/-! ### Degenerate responses and skipped ranks -/

theorem survivors_append (minSim : ℚ) (l₁ l₂ : List ResultRow) :
    survivors minSim (l₁ ++ l₂) = survivors minSim l₁ ++ survivors minSim l₂ :=
  List.filterMap_append l₁ l₂ _

theorem survivors_cons_none (minSim : ℚ) (r : ResultRow) (l : List ResultRow)
    (h : r.1 = none ∨ r.2.1 = none ∨ r.2.2 = none) :
    survivors minSim (r :: l) = survivors minSim l := by
  obtain ⟨x, y, z⟩ := r
  rcases h with h | h | h
  · cases h
    rfl
  · cases h
    rcases x with _ | xv <;> rfl
  · cases h
    rcases x with _ | xv
    · rfl
    · rcases y with _ | yv <;> rfl

/-- C10: on a degenerate vector-store response — any of the three result
arrays missing, empty, or with an empty first rank list — `query` returns
empty matches and scores with the query key omitted (while a non-degenerate
response carries the query key, see `query?` in the cons lemmas); and a rank
whose document, metadata, or distance entry is missing is silently skipped:
inserting such a rank into all three arrays changes neither the matches nor
the scores. -/
theorem C10_degenerate_and_skip (qt : String) (qe : List ℚ) (tk : ℕ) (minSim : ℚ) :
    (∀ raw : RawResults,
        (raw.documents = none ∨ raw.documents = some []
          ∨ (∃ t, raw.documents = some ([] :: t))
          ∨ raw.metadatas = none ∨ raw.metadatas = some []
          ∨ (∃ t, raw.metadatas = some ([] :: t))
          ∨ raw.distances = none ∨ raw.distances = some []
          ∨ (∃ t, raw.distances = some ([] :: t))) →
        query qt qe tk raw minSim
          = { matchList := [], resume_scores := [], query? := none })
    ∧ ∀ (d1 d2 : List (Option String)) (dt : List (List (Option String)))
        (m1 m2 : List (Option SectionMeta)) (mt : List (List (Option SectionMeta)))
        (s1 s2 : List (Option ℚ)) (st : List (List (Option ℚ)))
        (x : Option String) (y : Option SectionMeta) (z : Option ℚ),
        (x = none ∨ y = none ∨ z = none) →
        d1.length = m1.length → d1.length = s1.length →
        (query qt qe tk
            ⟨some ((d1 ++ x :: d2) :: dt), some ((m1 ++ y :: m2) :: mt),
             some ((s1 ++ z :: s2) :: st)⟩ minSim).matchList
          = (query qt qe tk
              ⟨some ((d1 ++ d2) :: dt), some ((m1 ++ m2) :: mt),
               some ((s1 ++ s2) :: st)⟩ minSim).matchList
        ∧ (query qt qe tk
            ⟨some ((d1 ++ x :: d2) :: dt), some ((m1 ++ y :: m2) :: mt),
             some ((s1 ++ z :: s2) :: st)⟩ minSim).resume_scores
          = (query qt qe tk
              ⟨some ((d1 ++ d2) :: dt), some ((m1 ++ m2) :: mt),
               some ((s1 ++ s2) :: st)⟩ minSim).resume_scores := by
  constructor
  · intro raw hdeg
    obtain ⟨d, m, s⟩ := raw
    rcases hdeg with h | h | ⟨t', h⟩ | h | h | ⟨t', h⟩ | h | h | ⟨t', h⟩ <;> subst h
    · rfl
    · rfl
    · rcases m with _ | (_ | ⟨m0, mt⟩) <;> rcases s with _ | (_ | ⟨s0, st⟩) <;> rfl
    · rcases d with _ | (_ | ⟨d0, dt⟩) <;> rfl
    · rcases d with _ | (_ | ⟨d0, dt⟩) <;> rfl
    · rcases d with _ | (_ | ⟨d0, dt⟩) <;> rcases s with _ | (_ | ⟨s0, st⟩) <;>
        first
        | rfl
        | (cases d0 <;> rfl)
    · rcases d with _ | (_ | ⟨d0, dt⟩) <;> rcases m with _ | (_ | ⟨m0, mt⟩) <;> rfl
    · rcases d with _ | (_ | ⟨d0, dt⟩) <;> rcases m with _ | (_ | ⟨m0, mt⟩) <;> rfl
    · rcases d with _ | (_ | ⟨d0, dt⟩) <;> rcases m with _ | (_ | ⟨m0, mt⟩) <;>
        first
        | rfl
        | (cases d0 <;> rfl)
        | (cases d0 <;> first | rfl | (cases m0 <;> rfl))
  · intro d1 d2 dt m1 m2 mt s1 s2 st x y z hxyz h1 h2
    have hms : m1.length = s1.length := h1.symm.trans h2
    have hzlen : d1.length = (m1.zip s1).length := by
      rw [List.length_zip, ← hms, Nat.min_self, ← h1]
    have hzip : (d1 ++ x :: d2).zip ((m1 ++ y :: m2).zip (s1 ++ z :: s2))
        = d1.zip (m1.zip s1) ++ (x, y, z) :: d2.zip (m2.zip s2) := by
      rw [List.zip_append hms, List.zip_cons_cons, List.zip_append hzlen,
        List.zip_cons_cons]
    have hzip2 : (d1 ++ d2).zip ((m1 ++ m2).zip (s1 ++ s2))
        = d1.zip (m1.zip s1) ++ d2.zip (m2.zip s2) := by
      rw [List.zip_append hms, List.zip_append hzlen]
    have hsurv : survivors minSim ((d1 ++ x :: d2).zip ((m1 ++ y :: m2).zip (s1 ++ z :: s2)))
        = survivors minSim ((d1 ++ d2).zip ((m1 ++ m2).zip (s1 ++ s2))) := by
      rw [hzip, hzip2, survivors_append, survivors_append,
        survivors_cons_none minSim (x, y, z) _ hxyz]
    constructor
    · rw [query_matchList_cons, query_matchList_cons, hsurv]
    · rw [query_scores_cons, query_scores_cons, hsurv]

/-- C10, witness: the degenerate half applied to a fully missing response. -/
theorem C10_degenerate_and_skip_witness :
    query "q" [] 5 ⟨none, none, none⟩ 0
      = { matchList := [], resume_scores := [], query? := none } :=
  (C10_degenerate_and_skip "q" [] 5 0).1 ⟨none, none, none⟩ (Or.inl rfl)

/-! ### Concrete query evaluation used by the remaining witnesses -/

/-- Metadata of a single stored section used in concrete examples. -/
def meta₀ : SectionMeta :=
  { resume_id := "r1", section_name := "skills", filename := "a.pdf" }

/-- Concrete store response: one neighbor at distance 0. -/
def raw₀ : RawResults :=
  { documents := some [[some "doc"]], metadatas := some [[some meta₀]],
    distances := some [[some 0]] }

theorem query_raw₀ :
    query "q" [] 5 raw₀ (1/2)
      = { matchList := [mkMatch meta₀ "doc" 100],
          resume_scores := [("r1", 100)], query? := some "q" } := by
  have h1 : round2 ((1 - (0:ℚ)) * 100) = 100 := by norm_num [round2, round_eq]
  have h2 : (1:ℚ)/2 * 100 ≤ 100 := by norm_num
  have h3 : round2 (listMean [(100:ℚ)]) = 100 := by
    norm_num [listMean, round2, round_eq]
  have hraw : raw₀ = ⟨some [[some "doc"]], some [[some meta₀]], some [[some (0:ℚ)]]⟩ := rfl
  have hsv : survivors (1/2) ([some "doc"].zip ([some meta₀].zip [some (0:ℚ)]))
      = [(meta₀, ("doc", 100))] := by
    show survivors (1/2) [(some "doc", (some meta₀, some (0:ℚ)))] = [(meta₀, ("doc", 100))]
    simp only [survivors, List.filterMap_cons, List.filterMap_nil]
    rw [h1, if_pos h2]
  have hm : (query "q" [] 5 raw₀ (1/2)).matchList = [mkMatch meta₀ "doc" 100] := by
    rw [hraw, query_matchList_cons, hsv]
    rfl
  have hs : (query "q" [] 5 raw₀ (1/2)).resume_scores = [("r1", 100)] := by
    rw [hraw, query_scores_cons, hsv]
    show (buildScores [("r1", (100:ℚ))]).map (fun e => (e.1, round2 (listMean e.2)))
        = [("r1", 100)]
    rw [show buildScores [("r1", (100:ℚ))] = [("r1", [(100:ℚ)])] from rfl]
    simp [h3]
  have hq : (query "q" [] 5 raw₀ (1/2)).query? = some "q" := rfl
  calc query "q" [] 5 raw₀ (1/2)
      = ⟨(query "q" [] 5 raw₀ (1/2)).matchList,
         (query "q" [] 5 raw₀ (1/2)).resume_scores,
         (query "q" [] 5 raw₀ (1/2)).query?⟩ := rfl
    _ = ⟨[mkMatch meta₀ "doc" 100], [("r1", 100)], some "q"⟩ := by rw [hm, hs, hq]

/-- C8, counterexample: the single match produced for `raw₀` carries exactly
the keys resume_id, section_name, match_percentage, text and id; there is no
filename key, contradicting the claimed Match shape. -/
theorem C8_counterexample :
    (query "q" [] 5 raw₀ (1/2)).matchList = [mkMatch meta₀ "doc" 100]
    ∧ (mkMatch meta₀ "doc" 100).map Prod.fst
        = ["resume_id", "section_name", "match_percentage", "text", "id"]
    ∧ List.lookup "filename" (mkMatch meta₀ "doc" 100) = none := by
  refine ⟨by rw [query_raw₀], rfl, rfl⟩

/-- C8, witness: the key-shape statement applied to the concrete match of
`raw₀`. -/
theorem C8_match_keys_witness :
    (mkMatch meta₀ "doc" 100).map Prod.fst
      = ["resume_id", "section_name", "match_percentage", "text", "id"] :=
  C8_match_keys "q" [] 5 raw₀ (1/2) (mkMatch meta₀ "doc" 100)
    (by rw [query_raw₀]; exact List.mem_singleton.mpr rfl)

/-- C2, witness: the threshold statement applied to the concrete match of
`raw₀` with threshold one half; it yields fifty at most one hundred. -/
theorem C2_threshold_witness : (1/2 : ℚ) * 100 ≤ 100 :=
  C2_threshold "q" [] 5 raw₀ (1/2) (mkMatch meta₀ "doc" 100)
    (by rw [query_raw₀]; exact List.mem_singleton.mpr rfl) 100 rfl

/-- C3, witness: the percentage equation applied to the concrete neighbor of
`raw₀` at distance 0. -/
theorem C3_match_percentage_witness :
    mkMatch meta₀ "doc" (round2 ((1 - (0:ℚ)) * 100)) ∈
      (query "q" [] 5
        ⟨some [[some "doc"]], some [[some meta₀]], some [[some (0:ℚ)]]⟩ (1/2)).matchList
    ∧ List.lookup "match_percentage" (mkMatch meta₀ "doc" (round2 ((1 - (0:ℚ)) * 100)))
        = some (Val.rat (round2 ((1 - (0:ℚ)) * 100))) :=
  C3_match_percentage "q" [] 5 (1/2) [some "doc"] [] [some meta₀] [] [some (0:ℚ)] []
    "doc" meta₀ 0 (List.mem_singleton.mpr rfl) (by norm_num [round2, round_eq])

end ResumeRAG
